import Mathlib

/-!
Verification development for the n8n streaming file-transfer node
(`SiteToSiteFileTransfer`).  The definitions below are a shallow embedding of
the TypeScript sources:

* `GenericFunctions.ts` — `parseHeaders` (header normalization) and
  `extractBearerToken` (bearer credential extraction from the upload URL);
* the two `transferFile` operation implementations found in the repository
  (`execute1` embeds the request-helper variant, `execute2` embeds the
  native-HTTP download variant).  The HTTP transports themselves are
  abstracted: each `execute` takes the observable outcome of the download and
  upload legs as explicit arguments and computes the node's result (a thrown
  error or a returned JSON record) exactly as the source does.

JavaScript machine details are modelled as follows: strings are Lean
`String`s (JS `.length`/`substring` count UTF-16 units; all concrete inputs
used here are ASCII, where the two notions agree); JS objects used as header
maps are association lists with first-occurrence key positions and
last-assignment-wins values, mirroring JS property-assignment semantics;
JS numbers appearing in the modelled code paths are integers (`Int`), since
every numeric operation the code performs on them — truthiness, `parseInt`,
`> 0`, `String(...)` — is integer-valued on the claims' inputs; `NaN` is
modelled by `Option` (`none`).  JSON numbers with fractional or exponent
parts are left out of the JSON model (no claim depends on them).
-/

/-- Substring test on character lists: does `pat` occur as a prefix of `s`?
Models the prefix step of JS `String.prototype.includes`. -/
def listPrefixOf : List Char → List Char → Bool
  | [], _ => true
  | _ :: _, [] => false
  | p :: ps, c :: cs => p == c && listPrefixOf ps cs

/-- Does `pat` occur anywhere inside `s` (as a contiguous run)? -/
def containsAux : List Char → List Char → Bool
  | [], pat => pat.isEmpty
  | c :: cs, pat => listPrefixOf pat (c :: cs) || containsAux cs pat

/-- Models JS `s.includes(pat)`. -/
def containsStr (s pat : String) : Bool :=
  containsAux s.data pat.data

/-- The ASCII whitespace characters stripped by the modelled JS operations
(space, tab, line feed, carriage return).  JS `trim` also strips further
Unicode whitespace; no claim involves those characters. -/
def isWsChar (c : Char) : Bool :=
  c == ' ' || c == '\t' || c == '\n' || c == '\r'

/-- Models JS `s.trim()` (restricted to ASCII whitespace). -/
def jsTrim (s : String) : String :=
  String.mk (((s.data.dropWhile isWsChar).reverse.dropWhile isWsChar).reverse)

/-- Decimal digits of `n`, most significant first; `fuel` bounds the
recursion depth so that the definition is structural (and hence reduces
inside the kernel).  `decStr` always supplies enough fuel. -/
def decCharsAux : Nat → Nat → List Char
  | 0, _ => []
  | Nat.succ fuel, n =>
    if n < 10 then [Nat.digitChar n]
    else decCharsAux fuel (n / 10) ++ [Nat.digitChar (n % 10)]

/-- Canonical decimal character list of a natural number. -/
def decChars (n : Nat) : List Char := decCharsAux (n + 1) n

/-- Decimal rendering of a natural number; models JS `String(n)` for
non-negative integers (and the decimal index keys of `Object.entries` on an
array). -/
def decStr (n : Nat) : String := String.mk (decChars n)

/-- Models JS `String(n)` for an integer `n`. -/
def intStr (i : Int) : String :=
  if i < 0 then "-" ++ decStr i.natAbs else decStr i.toNat

/-- Value of a list of decimal digit characters. -/
def digitsToNat (ds : List Char) : Nat :=
  ds.foldl (fun a c => a * 10 + (c.toNat - 48)) 0

/-- Models JS `parseInt(s, 10)`: skip leading whitespace, read an optional
sign and then the longest run of leading decimal digits; `none` models
`NaN` (no digits found). -/
def parseIntJS (s : String) : Option Int :=
  let cs := s.data.dropWhile isWsChar
  let signed : Bool × List Char :=
    match cs with
    | '-' :: r => (true, r)
    | '+' :: r => (false, r)
    | r => (false, r)
  let ds := signed.2.takeWhile Char.isDigit
  if ds.isEmpty then none
  else some ((if signed.1 then -1 else 1) * (digitsToNat ds : Int))

/-- A JS object used as a string-valued map (`Record<string, string>`),
modelled as an association list: key positions follow first insertion,
values follow last assignment, as for JS property assignment. -/
abbrev Headers := List (String × String)

/-- Property read `h[k]`: `none` models `undefined`. -/
def hget : Headers → String → Option String
  | [], _ => none
  | (k0, v0) :: rest, k => if k0 = k then some v0 else hget rest k

/-- Property assignment `h[k] = v`: overwrite in place if the key exists,
else append. -/
def hset : Headers → String → String → Headers
  | [], k, v => [(k, v)]
  | (k0, v0) :: rest, k, v =>
    if k0 = k then (k0, v) :: rest else (k0, v0) :: hset rest k v

/-- Object spread `\x7b ...a, ...b \x7d`: start from `a` and assign each of
`b`'s entries in order. -/
def hmerge (a b : Headers) : Headers :=
  b.foldl (fun acc kv => hset acc kv.1 kv.2) a

/-- Last-assignment lookup: the value the spread of `b` contributes for `k`
(used only in proofs about `hmerge`). -/
def hgetLast : Headers → String → Option String
  | [], _ => none
  | (k0, v0) :: rest, k =>
    match hgetLast rest k with
    | some v => some v
    | none => if k0 = k then some v0 else none

/-- The keys of a header map, in order. -/
def hkeys (h : List (String × String)) : List String := h.map Prod.fst

/-- JS truthiness of a property read: `undefined` and `""` are falsy. -/
def hTruthy : Option String → Bool
  | none => false
  | some s => !(s == "")

/-- The opening-brace character (written via its code point to keep brace
characters out of literals). -/
def lbraceC : Char := Char.ofNat 123

/-- The closing-brace character. -/
def rbraceC : Char := Char.ofNat 125

/-- Parsed JSON values, as produced by JS `JSON.parse`.  Numbers are
modelled as integers (see the header comment). -/
inductive Json where
  | null
  | bool (b : Bool)
  | num (n : Int)
  | str (s : String)
  | arr (elems : List Json)
  | obj (entries : List (String × Json))

/-- Insert a key into an object under construction with JS duplicate-key
semantics (`JSON.parse`): the last value wins, at the key's first position. -/
def objInsert : List (String × Json) → String → Json → List (String × Json)
  | [], k, v => [(k, v)]
  | (k0, v0) :: rest, k, v =>
    if k0 = k then (k0, v) :: rest else (k0, v0) :: objInsert rest k v

/-- JSON whitespace characters. -/
def isJsonWs (c : Char) : Bool :=
  c == ' ' || c == '\t' || c == '\n' || c == '\r'

/-- Parse the remainder of a JSON string literal (the opening quote already
consumed), handling the single-character escapes.  `\u` escapes are not
modelled (no claim involves them): they make the parse fail. -/
def parseStrChars : List Char → List Char → Option (String × List Char)
  | [], _ => none
  | '"' :: r, acc => some (String.mk acc.reverse, r)
  | '\\' :: e :: r, acc =>
    if e == '"' then parseStrChars r ('"' :: acc)
    else if e == '\\' then parseStrChars r ('\\' :: acc)
    else if e == '/' then parseStrChars r ('/' :: acc)
    else if e == 'n' then parseStrChars r ('\n' :: acc)
    else if e == 't' then parseStrChars r ('\t' :: acc)
    else if e == 'r' then parseStrChars r ('\r' :: acc)
    else if e == 'b' then parseStrChars r (Char.ofNat 8 :: acc)
    else if e == 'f' then parseStrChars r (Char.ofNat 12 :: acc)
    else none
  | '\\' :: [], _ => none
  | c :: r, acc => parseStrChars r (c :: acc)

/-- Parse a JSON integer literal (optional minus sign, no leading zeros, no
fractional or exponent part — those make the parse fail, see the header
comment). -/
def parseNumLit (cs : List Char) : Option (Json × List Char) :=
  let signed : Bool × List Char :=
    match cs with
    | '-' :: r => (true, r)
    | r => (false, r)
  let ds := signed.2.takeWhile Char.isDigit
  let rest := signed.2.drop ds.length
  if ds.isEmpty then none
  else if ds.length > 1 && ds.headD '0' == '0' then none
  else
    match rest with
    | '.' :: _ => none
    | 'e' :: _ => none
    | 'E' :: _ => none
    | _ => some (Json.num ((if signed.1 then -1 else 1) * (digitsToNat ds : Int)), rest)

/-- What the recursive-descent JSON parser is currently doing: parsing one
value, the elements of an array (accumulator reversed), or the entries of an
object (accumulator in order). -/
inductive ParseTask where
  | val
  | arrElems (acc : List Json)
  | objEntries (acc : List (String × Json))

/-- The JSON parser, modelling JS `JSON.parse` on the fragment described
above.  A single fuel-indexed structural recursion (so that the kernel can
evaluate it); `jsonParse` supplies fuel proportional to the input length,
which bounds the number of recursive steps. -/
def parseJ : Nat → ParseTask → List Char → Option (Json × List Char)
  | 0, _, _ => none
  | Nat.succ fuel, ParseTask.val, cs0 =>
    let cs := cs0.dropWhile isJsonWs
    match cs with
    | [] => none
    | c :: r =>
      if c = lbraceC then
        let r2 := r.dropWhile isJsonWs
        match r2 with
        | c2 :: r3 => if c2 = rbraceC then some (Json.obj [], r3)
                      else parseJ fuel (ParseTask.objEntries []) r2
        | [] => none
      else if c = '[' then
        let r2 := r.dropWhile isJsonWs
        match r2 with
        | ']' :: r3 => some (Json.arr [], r3)
        | _ => parseJ fuel (ParseTask.arrElems []) r2
      else if c = '"' then
        match parseStrChars r [] with
        | some (s, r2) => some (Json.str s, r2)
        | none => none
      else
        match cs with
        | 'n' :: 'u' :: 'l' :: 'l' :: r2 => some (Json.null, r2)
        | 't' :: 'r' :: 'u' :: 'e' :: r2 => some (Json.bool true, r2)
        | 'f' :: 'a' :: 'l' :: 's' :: 'e' :: r2 => some (Json.bool false, r2)
        | _ => parseNumLit cs
  | Nat.succ fuel, ParseTask.arrElems acc, cs =>
    match parseJ fuel ParseTask.val cs with
    | none => none
    | some (v, r) =>
      let r2 := r.dropWhile isJsonWs
      match r2 with
      | ']' :: r3 => some (Json.arr (v :: acc).reverse, r3)
      | ',' :: r3 => parseJ fuel (ParseTask.arrElems (v :: acc)) r3
      | _ => none
  | Nat.succ fuel, ParseTask.objEntries acc, cs0 =>
    let cs := cs0.dropWhile isJsonWs
    match cs with
    | '"' :: r =>
      match parseStrChars r [] with
      | none => none
      | some (k, r2) =>
        let r3 := r2.dropWhile isJsonWs
        match r3 with
        | ':' :: r4 =>
          match parseJ fuel ParseTask.val r4 with
          | none => none
          | some (v, r5) =>
            let r6 := r5.dropWhile isJsonWs
            match r6 with
            | c :: r7 =>
              if c = rbraceC then some (Json.obj (objInsert acc k v), r7)
              else if c = ',' then parseJ fuel (ParseTask.objEntries (objInsert acc k v)) r7
              else none
            | [] => none
        | _ => none
    | _ => none

/-- Models JS `JSON.parse` (on the modelled JSON fragment): parse one value
and require only whitespace to remain. -/
def jsonParse (s : String) : Option Json :=
  match parseJ (2 * s.data.length + 4) ParseTask.val s.data with
  | some (j, rest) => if (rest.dropWhile isJsonWs).isEmpty then some j else none
  | none => none

/-- The header parameter as the node receives it
(`headersParam: string | IDataObject` in `GenericFunctions.ts`). -/
inductive HeadersParam where
  | str (s : String)
  | obj (entries : List (String × Json))

/-- The value filter of `parseHeaders`: a top-level entry is kept when its
value is a string or a number (stringified via `String(value)`); every other
value kind is dropped. -/
def entryVal : Json → Option String
  | Json.str s => some s
  | Json.num n => some (intStr n)
  | _ => none

/-- The entry loop of `parseHeaders`: `result[key] = String(value)` for each
kept entry, in order (`hset` models the JS assignment). -/
def filterEntriesAux : Headers → List (String × Json) → Headers
  | acc, [] => acc
  | acc, (k, v) :: rest =>
    match entryVal v with
    | some s => filterEntriesAux (hset acc k s) rest
    | none => filterEntriesAux acc rest

/-- `parseHeaders`' projection of a parsed object's entries. -/
def filterEntries (kvs : List (String × Json)) : Headers :=
  filterEntriesAux [] kvs

/-- JS `typeof parsed === 'object' && parsed !== null`: true exactly for
objects and arrays among parsed JSON values. -/
def isObjectLike : Json → Bool
  | Json.obj _ => true
  | Json.arr _ => true
  | _ => false

/-- Models `Object.entries` on an array: each element keyed by its decimal
index, starting at `i`. -/
def enumEntries : Nat → List Json → List (String × Json)
  | _, [] => []
  | i, x :: xs => (decStr i, x) :: enumEntries (i + 1) xs

/-- Models `Object.entries` on an object-like parsed value. -/
def jsEntries : Json → List (String × Json)
  | Json.obj kvs => kvs
  | Json.arr xs => enumEntries 0 xs
  | _ => []

/-- Embedding of `parseHeaders` (`GenericFunctions.ts`, lines 62-96): empty
string input is falsy and yields the empty map; a string is `JSON.parse`d —
parse failure yields the empty map, and a parse result that is not
object-like (`typeof parsed !== 'object'` or `null`) also yields the empty
map; otherwise the top-level entries are filtered and stringified.  A direct
object input takes the same filter without the parse step.  The function is
total: nothing in it can raise. -/
def parseHeaders : HeadersParam → Headers
  | HeadersParam.str s =>
    if s = "" then []
    else
      match jsonParse s with
      | some j => if isObjectLike j then filterEntries (jsEntries j) else []
      | none => []
  | HeadersParam.obj kvs => filterEntries kvs

/-- The spec-side ("normalize") characterization of the entry projection,
used to compare `parseHeaders`' loop against the spec's words: keep exactly
the string- and number-valued entries, stringified, in order. -/
def specEntriesProjection (kvs : List (String × Json)) : Headers :=
  kvs.filterMap (fun kv => Option.map (fun s => (kv.1, s)) (entryVal kv.2))

/-- Re-present a normalized header map as an `IDataObject` (every value a JS
string), for feeding `parseHeaders`' output back into it. -/
def strHeadersData (h : Headers) : List (String × Json) :=
  h.map (fun kv => (kv.1, Json.str kv.2))

/-- Find the remainder of the list after the first occurrence of `t`. -/
def afterChar : List Char → Char → Option (List Char)
  | [], _ => none
  | c :: r, t => if c = t then some r else afterChar r t

/-- Split a character list on `'&'`. -/
def splitAmpAux : List Char → List Char → List (List Char)
  | [], acc => [acc.reverse]
  | '&' :: r, acc => acc.reverse :: splitAmpAux r []
  | c :: r, acc => splitAmpAux r (c :: acc)

/-- Hexadecimal digit value. -/
def hexVal (c : Char) : Option Nat :=
  if '0' ≤ c ∧ c ≤ '9' then some (c.toNat - 48)
  else if 'a' ≤ c ∧ c ≤ 'f' then some (c.toNat - 87)
  else if 'A' ≤ c ∧ c ≤ 'F' then some (c.toNat - 55)
  else none

/-- `application/x-www-form-urlencoded` decoding as `URLSearchParams`
performs it: `+` becomes a space and `%XX` a byte (multi-byte UTF-8 percent
sequences are modelled bytewise; no claim involves them). -/
def pctDecode : List Char → List Char
  | [] => []
  | '+' :: r => ' ' :: pctDecode r
  | '%' :: a :: b :: r =>
    match hexVal a, hexVal b with
    | some x, some y => Char.ofNat (16 * x + y) :: pctDecode r
    | _, _ => '%' :: pctDecode (a :: b :: r)
  | c :: r => c :: pctDecode r

/-- Models `new URL(u).searchParams.get(key)`: the decoded value of the
first query parameter (after the first `?`, before any `#`) whose decoded
key equals `key`; `none` models `null`. -/
def searchParamsGet (url : String) (key : String) : Option String :=
  let beforeHash := url.data.takeWhile (fun c => !(c == '#'))
  match afterChar beforeHash '?' with
  | none => none
  | some q =>
    let segs := (splitAmpAux q []).filter (fun seg => !seg.isEmpty)
    segs.findSome? (fun seg =>
      let k := String.mk (pctDecode (seg.takeWhile (fun c => !(c == '='))))
      if k = key then
        match afterChar seg '=' with
        | some v => some (String.mk (pctDecode v))
        | none => some ""
      else none)

/-- Scheme characters permitted after the leading letter of a URL scheme. -/
def isSchemeChar (c : Char) : Bool :=
  c.isAlphanum || c == '+' || c == '-' || c == '.'

/-- Approximates `new URL(u)` succeeding: a scheme (letter followed by
scheme characters) terminated by `:`.  The claims that depend on
`extractBearerToken` condition on its result, so finer points of WHATWG URL
validity do not affect them. -/
def urlValid (url : String) : Bool :=
  match url.data with
  | c :: rest =>
    c.isAlpha &&
      (let sch := rest.takeWhile isSchemeChar
       match rest.drop sch.length with
       | ':' :: _ => true
       | _ => false)
  | [] => false

/-- The result of `extractBearerToken`: the credential (if any) and the
original URL, returned unmodified in all cases. -/
structure BearerResult where
  token : Option String
  cleanUrl : String

/-- Embedding of `extractBearerToken` (`GenericFunctions.ts`, lines 29-45):
parse the URL (failure gives no token), read the `bearer` query parameter,
and treat an empty value as absent (`if (bearer)`); the URL is always
returned as-is. -/
def extractBearerToken (uploadUrl : String) : BearerResult :=
  if urlValid uploadUrl then
    match searchParamsGet uploadUrl "bearer" with
    | some b => if b = "" then ⟨none, uploadUrl⟩ else ⟨some b, uploadUrl⟩
    | none => ⟨none, uploadUrl⟩
  else ⟨none, uploadUrl⟩

/-- The `contentLength` node parameter (`string | number`, default `''`). -/
inductive CLParam where
  | num (n : Int)
  | str (s : String)

/-- JS truthiness of the `contentLength` parameter: `0` and `''` are falsy. -/
def clTruthy : CLParam → Bool
  | CLParam.num n => !(n == 0)
  | CLParam.str s => !(s == "")

/-- `typeof contentLength === 'number' ? contentLength :
parseInt(contentLength, 10)`; `none` models `NaN`. -/
def clLen : CLParam → Option Int
  | CLParam.num n => some n
  | CLParam.str s => parseIntJS s

/-- The per-invocation parameters of the transfer operation, as read from
the node configuration (both implementations read the same set). -/
structure Params where
  downloadUrl : String
  uploadUrl : String
  contentLength : CLParam
  method : String
  downloadHeadersParam : HeadersParam
  uploadHeadersParam : HeadersParam
  throwOnError : Bool

/-- The base upload headers: `Content-Type: application/octet-stream`
overridden by the user-supplied upload headers (object spread). -/
def baseUploadHeaders (uhp : HeadersParam) : Headers :=
  hmerge [("Content-Type", "application/octet-stream")] (parseHeaders uhp)

/-- The bearer-injection step (both implementations, e.g. lines 490-493 of
the native variant): inject `Authorization: Bearer <token>` when a token was
extracted and neither the exact key `Authorization` nor the exact key
`authorization` has a truthy value. -/
def applyBearer (h : Headers) (tok : Option String) : Headers :=
  match tok with
  | some t =>
    if hTruthy (hget h "Authorization") = false ∧ hTruthy (hget h "authorization") = false
    then hset h "Authorization" ("Bearer " ++ t)
    else h
  | none => h

/-- The shared assignment step for a content length `a`: parse it
(`typeof === 'number' ? value : parseInt`), and when it is a number
(`!isNaN`) and positive, assign `Content-Length`. -/
def assignPositiveCL (h : Headers) (a : CLParam) : Headers :=
  match clLen a with
  | some L => if 0 < L then hset h "Content-Length" (intStr L) else h
  | none => h

/-- The explicit `contentLength` step (both implementations, e.g. lines
495-501 of the native variant): when the parameter is truthy and parses to a
positive number, assign `Content-Length` — with no check whether the key is
already present. -/
def applyExplicitCL (h : Headers) (cl : CLParam) : Headers :=
  if clTruthy cl = true then assignPositiveCL h cl else h

/-- The upload headers as prepared before the download starts: defaults,
user headers, bearer injection, explicit content length — in source order. -/
def mkFinalUploadHeaders (uploadUrl : String) (uhp : HeadersParam) (cl : CLParam) : Headers :=
  applyExplicitCL
    (applyBearer (baseUploadHeaders uhp) (extractBearerToken uploadUrl).token)
    cl

/-- The response-derived `Content-Length` step (both implementations, e.g.
lines 536-547 of the native variant): `actualContentLength = contentLength
|| responseHeaders['content-length']`; when that is truthy and
`Content-Length` is not already truthy in the upload headers, parse it and
assign it if positive.  `clh` is the download response's `content-length`
header (absent modelled as an empty-string parameter, which is equally
falsy).  `clFallback` is the `contentLength || responseHeaders['content-length']`
expression. -/
def clFallback (cl : CLParam) (clh : Option String) : CLParam :=
  if clTruthy cl = true then cl
  else match clh with
       | some s => CLParam.str s
       | none => CLParam.str ""

def resolveCL (h : Headers) (cl : CLParam) (clh : Option String) : Headers :=
  if clTruthy (clFallback cl clh) = true ∧ hTruthy (hget h "Content-Length") = false then
    assignPositiveCL h (clFallback cl clh)
  else h

/-- The effective upload headers at the moment the upload request is
issued, given the download response's `content-length` header. -/
def effectiveUploadHeaders (p : Params) (clh : Option String) : Headers :=
  resolveCL (mkFinalUploadHeaders p.uploadUrl p.uploadHeadersParam p.contentLength)
    p.contentLength clh

/-- Values appearing in the returned JSON record: strings, numbers,
booleans, `undefined`, or a parsed JSON body. -/
inductive JVal where
  | s (v : String)
  | n (v : Nat)
  | b (v : Bool)
  | undef
  | j (v : Json)

/-- The outcome of one `execute` call: an error thrown to the host, or a
returned item whose `json` field is the given record. -/
inductive ExecResult where
  | thrown (msg : String)
  | returned (json : List (String × JVal))

/-- The keys of a returned record (empty for a thrown error). -/
def resKeys : ExecResult → List String
  | ExecResult.thrown _ => []
  | ExecResult.returned r => r.map Prod.fst

/-- Whether the call threw. -/
def isThrown : ExecResult → Bool
  | ExecResult.thrown _ => true
  | ExecResult.returned _ => false

/-- The failure message of a result: the thrown message, or the string
under the `error` key of a returned record. -/
def errField : ExecResult → String
  | ExecResult.thrown m => m
  | ExecResult.returned r =>
    match r.lookup "error" with
    | some (JVal.s m) => m
    | _ => ""

/-- The download-status failure message (identical in both
implementations). -/
def mDownloadFailed (code : Nat) (url : String) : String :=
  "Download failed with HTTP " ++ decStr code ++ " from " ++ url ++
    ". Please verify the download URL is accessible and returns a successful response."

/-- The upload-status failure message (identical in both implementations). -/
def mUploadFailed (code : Nat) (url : String) (method : String) : String :=
  "Upload failed with HTTP " ++ decStr code ++ " to " ++ url ++
    ". Please verify the upload URL is correct, authentication is valid, and the endpoint accepts " ++
    method ++ " requests."

/-- The outer catch block's message enrichment (identical in both
implementations): keep the message if it contains the literal text
`Download URL` or `Upload URL`, else wrap it and append both URLs. -/
def enhanceMessage (msg durl uurl : String) : String :=
  if containsStr msg "Download URL" = true ∨ containsStr msg "Upload URL" = true then msg
  else "File transfer failed: " ++ msg ++ ". Download URL: " ++ durl ++ ", Upload URL: " ++ uurl

/-- The outer catch block (identical in both implementations): enrich the
message; throw it when `throwOnError`, else return the soft-failure record
`error`/`success:false`/both URLs. -/
def catchBlock (p : Params) (msg : String) : ExecResult :=
  let enhanced := enhanceMessage msg p.downloadUrl p.uploadUrl
  if p.throwOnError then ExecResult.thrown enhanced
  else ExecResult.returned
    [("error", JVal.s enhanced), ("success", JVal.b false),
     ("downloadUrl", JVal.s p.downloadUrl), ("uploadUrl", JVal.s p.uploadUrl)]

/-- JS `a || b` on a number already known to be defined: `0` falls back. -/
def jsOr (n d : Nat) : Nat := if n = 0 then d else n

/-- An apostrophe, kept out of string literals. -/
def apos : String := String.singleton (Char.ofNat 39)

/-- The first "not a streamable format" diagnostic of the request-helper
implementation (lines 207-215): body type `object`, up to five keys, and a
preview truncated to 200 characters (ellipsis when it hits the cap).
`keys` is already `Object.keys(body).slice(0, 5)` and `preview`
`JSON.stringify(body).substring(0, 200)`; joining uses `', '`. -/
def notStreamableMsg1 (url : String) (keys : List String) (preview : String) : String :=
  "Download response from " ++ url ++ " is not a streamable format. " ++
  "The response body type is: object. " ++
  (if keys.length > 0 then "Response body keys: " ++ String.intercalate ", " keys ++ ". " else "") ++
  "Response preview: " ++ preview ++ (if preview.data.length ≥ 200 then "..." else "") ++ ". " ++
  "This usually means the server returned JSON/text instead of binary data. " ++
  "Please ensure the download URL returns a binary stream. " ++
  "You may need to add headers like " ++ apos ++ "Accept: */*" ++ apos ++ " to prevent automatic parsing."

/-- The second "not a streamable format" diagnostic of the request-helper
implementation (lines 223-227): body type and constructor name. -/
def notStreamableMsg2 (url : String) (bodyType : String) (ctorName : String) : String :=
  "Download response from " ++ url ++ " is not a streamable format. " ++
  "The response body type is: " ++ bodyType ++ ", constructor: " ++ ctorName ++ ". " ++
  "Please ensure the download URL returns a binary stream."

/-- JS `s.substring(0, n)`. -/
def strTake (s : String) (n : Nat) : String := String.mk (s.data.take n)

/-- Download-leg outcome of the native-HTTP implementation: a request
error (the `'error'` event, which rejects with `Download request failed:
<message>`), or a response with its status code (`res.statusCode`, which the
code coalesces with `|| 0`) and `content-length` header. -/
inductive Dl2 where
  | reqError (msg : String)
  | resp (statusCode : Option Nat) (contentLength : Option String)

/-- The body returned by `helpers.request` with `resolveWithFullResponse`:
a string (the code attempts `JSON.parse` on it) or an already-parsed
value. -/
inductive JBody where
  | jstr (s : String)
  | jother (v : Json)

/-- Upload-leg outcome of the native-HTTP implementation
(`helpers.request` with `resolveWithFullResponse`): a rejection carrying a
message, or a response with optional status code and body. -/
inductive Ul2 where
  | reqError (msg : String)
  | resp (statusCode : Option Nat) (body : Option JBody)

/-- The success record of the native-HTTP implementation (lines 622-642):
`success`, both statuses (`|| 200`), and the upload body — `JSON.parse`d
when it is a string that parses cleanly, as-is otherwise. -/
def successRecord2 (code : Nat) (usc : Option Nat) (body : Option JBody) : ExecResult :=
  let base : List (String × JVal) :=
    [("success", JVal.b true), ("downloadStatus", JVal.n (jsOr code 200)),
     ("uploadStatus", JVal.n (match usc with | none => 200 | some u => jsOr u 200))]
  match body with
  | none => ExecResult.returned base
  | some (JBody.jstr s) =>
    ExecResult.returned (base ++
      [("uploadResponse", match jsonParse s with | some j => JVal.j j | none => JVal.s s)])
  | some (JBody.jother v) => ExecResult.returned (base ++ [("uploadResponse", JVal.j v)])

/-- Embedding of the native-HTTP `execute` (second implementation in
`part_000`, lines 441-682).  Validation throws before the `try` block;
inside it, a download request error or a non-2xx download status rejects the
download promise, so both land in the outer catch block; a non-2xx upload
status throws when `throwOnError` (also landing in the catch block) and
otherwise returns the upload soft-failure record directly (bypassing the
catch block).  The effective upload headers are computed by
`effectiveUploadHeaders`; the transports receiving them are abstract here. -/
def execute2 (p : Params) (dl : Dl2) (ul : Ul2) : ExecResult :=
  if p.downloadUrl = "" ∨ jsTrim p.downloadUrl = "" then
    ExecResult.thrown "Download URL is required and cannot be empty"
  else if p.uploadUrl = "" ∨ jsTrim p.uploadUrl = "" then
    ExecResult.thrown "Upload URL is required and cannot be empty"
  else
    match dl with
    | Dl2.reqError m => catchBlock p ("Download request failed: " ++ m)
    | Dl2.resp sc _clh =>
      let code := sc.getD 0
      if code < 200 ∨ 300 ≤ code then
        catchBlock p (mDownloadFailed code p.downloadUrl)
      else
        match ul with
        | Ul2.reqError m => catchBlock p m
        | Ul2.resp usc body =>
          match usc with
          | some u =>
            if u < 200 ∨ 300 ≤ u then
              if p.throwOnError then
                catchBlock p (mUploadFailed u p.uploadUrl p.method)
              else
                ExecResult.returned
                  [("error", JVal.s (mUploadFailed u p.uploadUrl p.method)),
                   ("uploadStatus", JVal.n u), ("downloadStatus", JVal.n code),
                   ("uploadUrl", JVal.s p.uploadUrl), ("downloadUrl", JVal.s p.downloadUrl)]
            else successRecord2 code (some u) body
          | none => successRecord2 code none body

/-- The shape of the body returned by `helpers.request` with
`encoding: null` in the request-helper implementation, as the stream checks
observe it: a live stream (has `pipe`), a `Buffer` (wrapped via
`Readable.from`), a parsed object (carrying its `Object.keys` and its
`JSON.stringify` rendering, the two observations the diagnostic makes of
it), a string, `null`, or `undefined`. -/
inductive Body1 where
  | stream
  | buffer
  | parsedObj (keys : List String) (stringified : String)
  | strBody
  | nullBody
  | undef

/-- Download-leg outcome of the request-helper implementation
(`helpers.request` with `resolveWithFullResponse`): rejection, or a full
response with optional status code, `content-length` header and body. -/
inductive Dl1 where
  | reqError (msg : String)
  | resp (statusCode : Option Nat) (contentLength : Option String) (body : Body1)

/-- Upload-leg outcome of the request-helper implementation
(`helpers.httpRequest`, no full response): rejection, or a response value
with the status code the `'statusCode' in uploadResponse` check finds
(`none` when the response is not an object carrying one). -/
inductive Ul1 where
  | reqError (msg : String)
  | resp (statusCode : Option Nat) (body : Json)

/-- `downloadStatus: downloadStatusCode` in the upload soft-failure record
of the request-helper implementation: the code, or `undefined`. -/
def optStatusVal : Option Nat → JVal
  | some c => JVal.n c
  | none => JVal.undef

/-- The success record of the request-helper implementation (lines
269-287): `success`, both statuses (`|| 200`, `undefined` giving 200), and
the upload response as-is. -/
def successRecord1 (sc : Option Nat) (usc : Option Nat) (body : Json) : List (String × JVal) :=
  [("success", JVal.b true),
   ("downloadStatus", JVal.n (match sc with | none => 200 | some c => jsOr c 200)),
   ("uploadStatus", JVal.n (match usc with | none => 200 | some u => jsOr u 200)),
   ("uploadResponse", JVal.j body)]

/-- The upload leg of the request-helper implementation (lines 230-266): a
rejection lands in the catch block; a non-2xx status throws when
`throwOnError` (landing in the catch block) and otherwise returns the upload
soft-failure record directly. -/
def execute1Upload (p : Params) (sc : Option Nat) (ul : Ul1) : ExecResult :=
  match ul with
  | Ul1.reqError m => catchBlock p m
  | Ul1.resp usc body =>
    match usc with
    | some u =>
      if u < 200 ∨ 300 ≤ u then
        if p.throwOnError then
          catchBlock p (mUploadFailed u p.uploadUrl p.method)
        else
          ExecResult.returned
            [("error", JVal.s (mUploadFailed u p.uploadUrl p.method)),
             ("uploadStatus", JVal.n u), ("downloadStatus", optStatusVal sc),
             ("uploadUrl", JVal.s p.uploadUrl), ("downloadUrl", JVal.s p.downloadUrl)]
      else ExecResult.returned (successRecord1 sc (some u) body)
    | none => ExecResult.returned (successRecord1 sc none body)

/-- The stream-shape checks of the request-helper implementation (lines
187-228): a `Buffer` is wrapped into a stream and a live stream used
directly (both proceed to the upload); a parsed object throws the first
diagnostic; a string, `null` or `undefined` body throws the second — all of
these throws land in the outer catch block. -/
def execute1Body (p : Params) (sc : Option Nat) (body : Body1) (ul : Ul1) : ExecResult :=
  match body with
  | Body1.stream => execute1Upload p sc ul
  | Body1.buffer => execute1Upload p sc ul
  | Body1.parsedObj keys stringified =>
    catchBlock p (notStreamableMsg1 p.downloadUrl (keys.take 5) (strTake stringified 200))
  | Body1.strBody => catchBlock p (notStreamableMsg2 p.downloadUrl "string" "String")
  | Body1.nullBody => catchBlock p (notStreamableMsg2 p.downloadUrl "object" "unknown")
  | Body1.undef => catchBlock p (notStreamableMsg2 p.downloadUrl "undefined" "unknown")

/-- Embedding of the request-helper `execute` (first implementation in
`part_000`, lines 81-309).  Validation throws before the `try` block.  The
download status is checked only when defined: a non-2xx status throws when
`throwOnError` (landing in the catch block) and otherwise returns the
download soft-failure record — which carries `downloadStatus` — directly. -/
def execute1 (p : Params) (dl : Dl1) (ul : Ul1) : ExecResult :=
  if p.downloadUrl = "" ∨ jsTrim p.downloadUrl = "" then
    ExecResult.thrown "Download URL is required and cannot be empty"
  else if p.uploadUrl = "" ∨ jsTrim p.uploadUrl = "" then
    ExecResult.thrown "Upload URL is required and cannot be empty"
  else
    match dl with
    | Dl1.reqError m => catchBlock p m
    | Dl1.resp sc _clh body =>
      match sc with
      | some c =>
        if c < 200 ∨ 300 ≤ c then
          if p.throwOnError then
            catchBlock p (mDownloadFailed c p.downloadUrl)
          else
            ExecResult.returned
              [("error", JVal.s (mDownloadFailed c p.downloadUrl)),
               ("downloadStatus", JVal.n c), ("downloadUrl", JVal.s p.downloadUrl)]
        else execute1Body p sc body ul
      | none => execute1Body p sc body ul

/-- ASCII lowercasing, used to state "no Authorization key under any
capitalization". -/
def lowerStr (s : String) : String := String.mk (s.data.map Char.toLower)

/-- Concrete request for the download-failure scenario (claim C1):
`throwOnError = false`. -/
def pC1 : Params :=
  ⟨"https://storage.example.com/bucket/file.pdf", "https://api.example.com/files/upload",
   CLParam.str "", "POST", HeadersParam.str "", HeadersParam.str "", false⟩

/-- Concrete request for the explicit-content-length scenario (claim C2):
`contentLength = 1048576` with a user-supplied `Content-Length: 999`. -/
def pC2 : Params :=
  ⟨"https://storage.example.com/bucket/file.pdf", "https://api.example.com/files/upload",
   CLParam.num 1048576, "POST", HeadersParam.str "",
   HeadersParam.obj [("Content-Length", Json.str "999")], true⟩

/-- Concrete request for the upload-401 soft-failure scenario (claim C3). -/
def pC3 : Params :=
  ⟨"https://storage.example.com/bucket/file.pdf", "https://api.example.com/files/upload",
   CLParam.str "", "POST", HeadersParam.str "", HeadersParam.str "", false⟩

/-- Concrete request for the unstreamable-body scenario (claim C4):
`throwOnError = false`. -/
def pC4 : Params :=
  ⟨"https://api.example.com/data", "https://upload.example.com/upload",
   CLParam.str "", "POST", HeadersParam.str "", HeadersParam.str "", false⟩

/-- The `JSON.stringify` rendering of the parsed body used in the C4
scenario. -/
def bodyPreviewC4 : String := "\x7b\"message\":\"hello\"\x7d"

/-- Concrete request for the bearer-capitalization scenario (claim C5): the
upload URL carries `?bearer=tok123` and the user supplies an
`AUTHORIZATION` header (upper-case). -/
def pC5 : Params :=
  ⟨"https://storage.example.com/f.bin", "https://api.example.com/upload?bearer=tok123",
   CLParam.str "", "POST", HeadersParam.str "",
   HeadersParam.obj [("AUTHORIZATION", Json.str "Basic xyz")], true⟩

/-- Concrete request for the bearer-injection witness (claim C5): same URL,
no Authorization-like header supplied. -/
def pC5w : Params :=
  ⟨"https://storage.example.com/f.bin", "https://api.example.com/upload?bearer=tok123",
   CLParam.str "", "POST", HeadersParam.str "",
   HeadersParam.obj [("X-Custom", Json.str "v")], true⟩

/-- Concrete request with a whitespace-only download URL (claim C6). -/
def pC6 : Params :=
  ⟨"   ", "https://api.example.com/upload",
   CLParam.str "", "POST", HeadersParam.str "", HeadersParam.str "", false⟩

/-- Concrete request for the outer-fault scenario (claim C7):
`throwOnError = false`. -/
def pC7 : Params :=
  ⟨"http://dl.example/f", "http://up.example/u",
   CLParam.str "", "POST", HeadersParam.str "", HeadersParam.str "", false⟩

/-- A transport failure message that names the upload URL but not the
literal labels the code tests for (claim C7). -/
def mC7 : String := "socket hang up after connecting to http://up.example/u"

theorem jsTrim_nil : jsTrim "" = "" := rfl

theorem urlCondNeg {s : String} (h : jsTrim s ≠ "") : ¬(s = "" ∨ jsTrim s = "") := by
  rintro (rfl | h2)
  · exact h jsTrim_nil
  · exact h h2

theorem hget_hset_self (h : Headers) (k v : String) : hget (hset h k v) k = some v := by
  induction h with
  | nil => simp [hset, hget]
  | cons kv rest ih =>
    obtain ⟨k0, v0⟩ := kv
    by_cases hk : k0 = k
    · simp [hset, hget, hk]
    · simp [hset, hget, hk, ih]

theorem hget_hset_ne (h : Headers) (k k2 v : String) (hne : k2 ≠ k) :
    hget (hset h k v) k2 = hget h k2 := by
  have hne2 : ¬(k = k2) := fun he => hne he.symm
  induction h with
  | nil => simp [hset, hget, hne2]
  | cons kv rest ih =>
    obtain ⟨k0, v0⟩ := kv
    by_cases hk : k0 = k
    · subst hk
      simp [hset, hget, hne2]
    · by_cases hk2 : k0 = k2
      · subst hk2
        simp [hset, hget, hne]
      · simp [hset, hget, hk, hk2, ih]

theorem hmerge_nil (a : Headers) : hmerge a [] = a := rfl

theorem hmerge_cons (a : Headers) (k v : String) (b : Headers) :
    hmerge a ((k, v) :: b) = hmerge (hset a k v) b := rfl

theorem hget_hmerge (b a : Headers) (k : String) :
    hget (hmerge a b) k =
      match hgetLast b k with
      | some v => some v
      | none => hget a k := by
  induction b generalizing a with
  | nil => simp [hmerge_nil, hgetLast]
  | cons kv rest ih =>
    obtain ⟨k0, v0⟩ := kv
    rw [hmerge_cons, ih]
    cases hL : hgetLast rest k with
    | some v => simp [hgetLast, hL]
    | none =>
      simp only [hgetLast, hL]
      by_cases hk : k0 = k
      · subst hk
        simp [hget_hset_self]
      · simp [hk, hget_hset_ne a k0 k v0 (fun h => hk h.symm)]

theorem hgetLast_none (b : Headers) (k : String) (h : ∀ kv ∈ b, kv.1 ≠ k) :
    hgetLast b k = none := by
  induction b with
  | nil => rfl
  | cons kv rest ih =>
    obtain ⟨k0, v0⟩ := kv
    have hk0 : k0 ≠ k := h (k0, v0) (by simp)
    rw [hgetLast, ih (fun kv hm => h kv (by simp [hm]))]
    simp [hk0]

theorem mem_hkeys_hset (h : Headers) (k v x : String) (hm : x ∈ hkeys (hset h k v)) :
    x ∈ hkeys h ∨ x = k := by
  induction h with
  | nil =>
    simp only [hset, hkeys, List.map_cons, List.map_nil, List.mem_singleton] at hm
    exact Or.inr hm
  | cons kv rest ih =>
    obtain ⟨k0, v0⟩ := kv
    by_cases hk : k0 = k
    · exact Or.inl (by simpa [hset, hkeys, hk] using hm)
    · simp only [hset, if_neg hk, hkeys, List.map_cons, List.mem_cons] at hm ⊢
      rcases hm with h1 | h2
      · exact Or.inl (Or.inl h1)
      · rcases ih h2 with h3 | h4
        · exact Or.inl (Or.inr h3)
        · exact Or.inr h4

theorem nodup_hkeys_hset (h : Headers) (k v : String) (hnd : (hkeys h).Nodup) :
    (hkeys (hset h k v)).Nodup := by
  induction h with
  | nil => simp [hset, hkeys]
  | cons kv rest ih =>
    obtain ⟨k0, v0⟩ := kv
    simp only [hkeys, List.map_cons, List.nodup_cons] at hnd
    by_cases hk : k0 = k
    · simpa [hset, hkeys, hk, List.nodup_cons] using hnd
    · simp only [hset, if_neg hk, hkeys, List.map_cons, List.nodup_cons]
      refine ⟨fun hm => ?_, ih hnd.2⟩
      rcases mem_hkeys_hset rest k v k0 hm with h1 | h2
      · exact hnd.1 h1
      · exact hk h2

theorem hset_eq_append (h : Headers) (k v : String) (hk : k ∉ hkeys h) :
    hset h k v = h ++ [(k, v)] := by
  induction h with
  | nil => rfl
  | cons kv rest ih =>
    obtain ⟨k0, v0⟩ := kv
    simp only [hkeys, List.map_cons, List.mem_cons, not_or] at hk
    have hne : ¬(k0 = k) := fun he => hk.1 he.symm
    simp [hset, hne, ih (by simpa [hkeys] using hk.2)]

theorem filterEntriesAux_eq_append (kvs : List (String × Json)) (acc : Headers)
    (hnd : (kvs.map Prod.fst).Nodup)
    (hdisj : ∀ x ∈ kvs.map Prod.fst, x ∉ hkeys acc) :
    filterEntriesAux acc kvs = acc ++ specEntriesProjection kvs := by
  induction kvs generalizing acc with
  | nil => simp [filterEntriesAux, specEntriesProjection]
  | cons kv rest ih =>
    obtain ⟨k, v⟩ := kv
    have hk_acc : k ∉ hkeys acc := hdisj k (by simp)
    simp only [List.map_cons, List.nodup_cons] at hnd
    cases hv : entryVal v with
    | none =>
      rw [show filterEntriesAux acc ((k, v) :: rest) = filterEntriesAux acc rest by
            simp [filterEntriesAux, hv]]
      rw [ih acc hnd.2 (fun x hx => hdisj x (by simp [hx]))]
      simp [specEntriesProjection, List.filterMap_cons, hv]
    | some s =>
      rw [show filterEntriesAux acc ((k, v) :: rest) = filterEntriesAux (hset acc k s) rest by
            simp [filterEntriesAux, hv]]
      rw [hset_eq_append acc k s hk_acc]
      rw [ih (acc ++ [(k, s)]) hnd.2 ?_]
      · simp [specEntriesProjection, List.filterMap_cons, hv]
      · intro x hx
        simp only [hkeys, List.map_append, List.mem_append, List.map_cons, List.map_nil,
          List.mem_singleton, not_or]
        exact ⟨hdisj x (by simp [hx]), fun he => hnd.1 (he ▸ hx)⟩

theorem nodup_hkeys_filterEntriesAux (kvs : List (String × Json)) (acc : Headers)
    (hnd : (hkeys acc).Nodup) : (hkeys (filterEntriesAux acc kvs)).Nodup := by
  induction kvs generalizing acc with
  | nil => simpa [filterEntriesAux] using hnd
  | cons kv rest ih =>
    obtain ⟨k, v⟩ := kv
    cases hv : entryVal v with
    | none =>
      rw [show filterEntriesAux acc ((k, v) :: rest) = filterEntriesAux acc rest by
            simp [filterEntriesAux, hv]]
      exact ih acc hnd
    | some s =>
      rw [show filterEntriesAux acc ((k, v) :: rest) = filterEntriesAux (hset acc k s) rest by
            simp [filterEntriesAux, hv]]
      exact ih _ (nodup_hkeys_hset acc k s hnd)

theorem nodup_hkeys_parseHeaders (hp : HeadersParam) : (hkeys (parseHeaders hp)).Nodup := by
  cases hp with
  | str s =>
    rw [parseHeaders]
    by_cases hs : s = ""
    · simp [hs, hkeys]
    · rw [if_neg hs]
      cases h : jsonParse s with
      | none => simp [hkeys]
      | some j =>
        by_cases ho : isObjectLike j = true
        · simpa [ho, filterEntries] using
            nodup_hkeys_filterEntriesAux (jsEntries j) [] (by simp [hkeys])
        · simp [ho, hkeys]
  | obj kvs =>
    exact nodup_hkeys_filterEntriesAux kvs [] (by simp [hkeys])

theorem specProj_strHeadersData (h : Headers) : specEntriesProjection (strHeadersData h) = h := by
  induction h with
  | nil => rfl
  | cons kv rest ih =>
    obtain ⟨k, v⟩ := kv
    simp [specEntriesProjection, strHeadersData, entryVal, List.filterMap_cons] at ih ⊢
    exact ih

theorem decCharsAux_fuel (f1 : Nat) : ∀ (f2 n : Nat), n < f1 → n < f2 →
    decCharsAux f1 n = decCharsAux f2 n := by
  induction f1 with
  | zero => intro f2 n h1 _; omega
  | succ f ih =>
    intro f2 n h1 h2
    cases f2 with
    | zero => omega
    | succ g =>
      simp only [decCharsAux]
      by_cases hn : n < 10
      · simp [hn]
      · have hd : n / 10 < n := Nat.div_lt_self (by omega) (by omega)
        simp only [hn, if_false]
        rw [ih g (n / 10) (by omega) (by omega)]

theorem decChars_unfold (n : Nat) :
    decChars n = if n < 10 then [Nat.digitChar n]
                 else decChars (n / 10) ++ [Nat.digitChar (n % 10)] := by
  rw [decChars, decCharsAux]
  by_cases hn : n < 10
  · simp [hn]
  · have hd : n / 10 < n := Nat.div_lt_self (by omega) (by omega)
    simp only [hn, if_false]
    rw [decChars, decCharsAux_fuel n (n / 10 + 1) (n / 10) (by omega) (by omega)]

theorem decChars_ne_nil (n : Nat) : decChars n ≠ [] := by
  rw [decChars_unfold]
  by_cases hn : n < 10
  · simp [hn]
  · simp [hn]

theorem decStr_ne_empty (n : Nat) : decStr n ≠ "" := by
  rw [decStr]
  intro h
  have : decChars n = [] := by
    have := congrArg String.data h
    simpa using this
  exact decChars_ne_nil n this

theorem digitChar_inj (a b : Nat) (ha : a < 10) (hb : b < 10)
    (h : Nat.digitChar a = Nat.digitChar b) : a = b := by
  have key : ∀ x : Fin 10, ∀ y : Fin 10, Nat.digitChar x.val = Nat.digitChar y.val → x = y := by
    decide
  have := key ⟨a, ha⟩ ⟨b, hb⟩ h
  exact congrArg Fin.val this

theorem decChars_inj (n : Nat) : ∀ m : Nat, decChars n = decChars m → n = m := by
  induction n using Nat.strong_induction_on with
  | _ n ih =>
    intro m h
    rw [decChars_unfold n, decChars_unfold m] at h
    by_cases hn : n < 10 <;> by_cases hm : m < 10
    · simp only [hn, hm, if_true, List.cons.injEq] at h
      exact digitChar_inj n m hn hm h.1
    · exfalso
      simp only [hn, hm, if_true, if_false] at h
      have hL := congrArg List.length h
      have hne := List.length_pos.mpr (decChars_ne_nil (m / 10))
      rw [List.length_append] at hL
      simp only [List.length_cons, List.length_nil] at hL
      omega
    · exfalso
      simp only [hn, hm, if_true, if_false] at h
      have hL := congrArg List.length h
      have hne := List.length_pos.mpr (decChars_ne_nil (n / 10))
      rw [List.length_append] at hL
      simp only [List.length_cons, List.length_nil] at hL
      omega
    · simp only [hn, hm, if_false] at h
      have hlen : [Nat.digitChar (n % 10)].length = [Nat.digitChar (m % 10)].length := rfl
      obtain ⟨h1, h2⟩ := List.append_inj' h hlen
      have e1 : n / 10 = m / 10 :=
        ih (n / 10) (Nat.div_lt_self (by omega) (by omega)) (m / 10) h1
      have e2 : n % 10 = m % 10 := by
        have h3 : Nat.digitChar (n % 10) = Nat.digitChar (m % 10) := by
          simpa using h2
        exact digitChar_inj _ _ (Nat.mod_lt _ (by omega)) (Nat.mod_lt _ (by omega)) h3
      omega

theorem decStr_inj (n m : Nat) (h : decStr n = decStr m) : n = m := by
  apply decChars_inj n m
  have := congrArg String.data h
  simpa [decStr] using this

theorem enum_keys_mem (xs : List Json) : ∀ (i : Nat) (k : String),
    k ∈ (enumEntries i xs).map Prod.fst → ∃ j, i ≤ j ∧ k = decStr j := by
  induction xs with
  | nil => intro i k h; simp [enumEntries] at h
  | cons x rest ih =>
    intro i k h
    simp only [enumEntries, List.map_cons, List.mem_cons] at h
    rcases h with h1 | h2
    · exact ⟨i, le_refl i, h1⟩
    · obtain ⟨j, hj, he⟩ := ih (i + 1) k h2
      exact ⟨j, by omega, he⟩

theorem enum_keys_nodup (xs : List Json) : ∀ i : Nat,
    ((enumEntries i xs).map Prod.fst).Nodup := by
  induction xs with
  | nil => intro i; simp [enumEntries]
  | cons x rest ih =>
    intro i
    simp only [enumEntries, List.map_cons, List.nodup_cons]
    refine ⟨fun hm => ?_, ih (i + 1)⟩
    obtain ⟨j, hj, he⟩ := enum_keys_mem rest (i + 1) (decStr i) hm
    have := decStr_inj i j he
    omega

theorem intStr_pos_ne_empty (n : Int) (hn : 0 < n) : intStr n ≠ "" := by
  rw [intStr, if_neg (by omega)]
  exact decStr_ne_empty n.toNat

theorem hget_applyBearer_of_truthy (h : Headers) (tok : Option String) (v : String)
    (hv : hget h "Authorization" = some v) (hne : v ≠ "") :
    applyBearer h tok = h := by
  cases tok with
  | none => rfl
  | some t =>
    rw [applyBearer]
    rw [if_neg]
    rintro ⟨h1, _⟩
    rw [hv] at h1
    simp [hTruthy] at h1
    exact hne h1

theorem hget_assignPositiveCL_ne (h : Headers) (a : CLParam) (k : String)
    (hk : k ≠ "Content-Length") :
    hget (assignPositiveCL h a) k = hget h k := by
  rw [assignPositiveCL]
  cases hL : clLen a with
  | none => rfl
  | some L =>
    by_cases hp : 0 < L
    · simp only [hp, if_true]
      exact hget_hset_ne h "Content-Length" k (intStr L) hk
    · simp [hp]

theorem hget_applyExplicitCL_ne (h : Headers) (cl : CLParam) (k : String)
    (hk : k ≠ "Content-Length") :
    hget (applyExplicitCL h cl) k = hget h k := by
  rw [applyExplicitCL]
  by_cases hc : clTruthy cl = true
  · rw [if_pos hc]
    exact hget_assignPositiveCL_ne h cl k hk
  · rw [if_neg hc]

theorem hget_resolveCL_ne (h : Headers) (cl : CLParam) (clh : Option String) (k : String)
    (hk : k ≠ "Content-Length") :
    hget (resolveCL h cl clh) k = hget h k := by
  rw [resolveCL]
  split
  · exact hget_assignPositiveCL_ne h _ k hk
  · rfl

theorem parseHeaders_obj_proj (kvs : List (String × Json)) (hnd : (kvs.map Prod.fst).Nodup) :
    parseHeaders (HeadersParam.obj kvs) = specEntriesProjection kvs := by
  rw [parseHeaders, filterEntries]
  rw [filterEntriesAux_eq_append kvs [] hnd (by intro x _; simp [hkeys])]
  simp

/-- C8: `parseHeaders` never raises (it is a total function by
construction); empty input yields the empty mapping; a string that fails
JSON parsing yields the empty mapping; a string that parses to a mapping
(with its JS-unique keys), or a mapping given directly, yields exactly the
entries whose values are strings or numbers, stringified, with entries of
every other value kind dropped. -/
theorem c8_normalize_behavior :
    parseHeaders (HeadersParam.str "") = []
    ∧ (∀ s, jsonParse s = none → parseHeaders (HeadersParam.str s) = [])
    ∧ (∀ s kvs, jsonParse s = some (Json.obj kvs) → (kvs.map Prod.fst).Nodup →
        parseHeaders (HeadersParam.str s) = specEntriesProjection kvs)
    ∧ (∀ kvs, (kvs.map Prod.fst).Nodup →
        parseHeaders (HeadersParam.obj kvs) = specEntriesProjection kvs) := by
  refine ⟨rfl, ?_, ?_, parseHeaders_obj_proj⟩
  · intro s h
    rw [parseHeaders]
    by_cases hs : s = ""
    · rw [if_pos hs]
    · rw [if_neg hs, h]
  · intro s kvs h hnd
    have hs : s ≠ "" := by
      rintro rfl
      rw [show jsonParse "" = none from rfl] at h
      exact Option.noConfusion h
    rw [parseHeaders, if_neg hs, h]
    show (if isObjectLike (Json.obj kvs) = true then filterEntries (jsEntries (Json.obj kvs)) else []) = _
    rw [if_pos (show isObjectLike (Json.obj kvs) = true from rfl)]
    show filterEntries kvs = _
    rw [filterEntries, filterEntriesAux_eq_append kvs [] hnd (by intro x _; simp [hkeys])]
    simp

/-- C8 witness: a malformed header string yields the empty mapping, and a
JSON object keeps exactly its string- and number-valued entries. -/
theorem c8_witness :
    parseHeaders (HeadersParam.str "not json!!") = []
    ∧ parseHeaders (HeadersParam.str "\x7b\"Authorization\": \"Bearer t0\", \"X-Retry\": 3, \"Flag\": true, \"Nested\": \x7b\x7d\x7d")
        = [("Authorization", "Bearer t0"), ("X-Retry", "3")] := by
  constructor
  · exact c8_normalize_behavior.2.1 "not json!!" (by rfl)
  · rw [c8_normalize_behavior.2.2.1
      "\x7b\"Authorization\": \"Bearer t0\", \"X-Retry\": 3, \"Flag\": true, \"Nested\": \x7b\x7d\x7d"
      [("Authorization", Json.str "Bearer t0"), ("X-Retry", Json.num 3),
       ("Flag", Json.bool true), ("Nested", Json.obj [])]
      (by rfl) (by decide)]
    rfl

/-- C9: `parseHeaders` is idempotent — feeding its output back in as a
mapping (of JS strings) returns the same mapping. -/
theorem c9_normalize_idempotent (x : HeadersParam) :
    parseHeaders (HeadersParam.obj (strHeadersData (parseHeaders x))) = parseHeaders x := by
  have hnd : (hkeys (parseHeaders x)).Nodup := nodup_hkeys_parseHeaders x
  have hk : (strHeadersData (parseHeaders x)).map Prod.fst = hkeys (parseHeaders x) := by
    simp [strHeadersData, hkeys, List.map_map, Function.comp]
  rw [parseHeaders_obj_proj _ (by rw [hk]; exact hnd)]
  exact specProj_strHeadersData (parseHeaders x)

/-- C10 counterexample: the string `"[]"` parses as a JSON array, yet
`parseHeaders` returns the empty mapping for it — refuting the claim that
every array-parsing input yields a non-empty mapping. -/
theorem c10_counterexample :
    jsonParse "[]" = some (Json.arr []) ∧ parseHeaders (HeadersParam.str "[]") = [] :=
  ⟨rfl, rfl⟩

/-- C10 (amended): a string that parses as a JSON array passes the object
check, and each element whose value is a string or number becomes an entry
keyed by its decimal index (so the result is non-empty exactly when such an
element exists; the empty array yields the empty mapping). -/
theorem c10_array_entries (s : String) (xs : List Json)
    (h : jsonParse s = some (Json.arr xs)) :
    parseHeaders (HeadersParam.str s) = specEntriesProjection (enumEntries 0 xs) := by
  have hs : s ≠ "" := by
    rintro rfl
    rw [show jsonParse "" = none from rfl] at h
    exact Option.noConfusion h
  rw [parseHeaders, if_neg hs, h]
  show (if isObjectLike (Json.arr xs) = true then filterEntries (jsEntries (Json.arr xs)) else []) = _
  rw [if_pos (show isObjectLike (Json.arr xs) = true from rfl)]
  show filterEntries (enumEntries 0 xs) = _
  rw [filterEntries,
    filterEntriesAux_eq_append (enumEntries 0 xs) [] (enum_keys_nodup xs 0)
      (by intro x _; simp [hkeys])]
  simp

/-- C10 witness: `"[1, \"a\"]"` yields the mapping with decimal-index keys. -/
theorem c10_witness :
    jsonParse "[1, \"a\"]" = some (Json.arr [Json.num 1, Json.str "a"])
    ∧ parseHeaders (HeadersParam.str "[1, \"a\"]") = [("0", "1"), ("1", "a")] := by
  refine ⟨rfl, ?_⟩
  rw [c10_array_entries "[1, \"a\"]" [Json.num 1, Json.str "a"] (by rfl)]
  rfl

/-- C2 counterexample: with `contentLength = 1048576` and user-supplied
upload headers already setting `Content-Length: 999`, the effective upload
headers carry `1048576` — the explicit parameter overrides the user value,
refuting the claim that the user value is kept. -/
theorem c2_counterexample :
    hget (effectiveUploadHeaders pC2 none) "Content-Length" = some "1048576"
    ∧ ¬ hget (effectiveUploadHeaders pC2 none) "Content-Length" = some "999" :=
  ⟨rfl, by decide⟩

/-- C2 (amended): an explicitly supplied positive numeric `contentLength`
always determines the effective `Content-Length` upload header, overwriting
any user-supplied value; only the download-response-derived length respects
an already-set header. -/
theorem c2_explicit_length_overrides (p : Params) (n : Int) (clh : Option String)
    (hcl : p.contentLength = CLParam.num n) (hn : 0 < n) :
    hget (effectiveUploadHeaders p clh) "Content-Length" = some (intStr n) := by
  have hne0 : ¬(n = 0) := by omega
  have hstep : ∀ h : Headers,
      applyExplicitCL h (CLParam.num n) = hset h "Content-Length" (intStr n) := by
    intro h
    rw [applyExplicitCL, if_pos (show clTruthy (CLParam.num n) = true by simp [clTruthy, hne0])]
    show (if 0 < n then hset h "Content-Length" (intStr n) else h) = _
    rw [if_pos hn]
  rw [effectiveUploadHeaders, mkFinalUploadHeaders, hcl, hstep]
  rw [resolveCL, if_neg]
  · exact hget_hset_self _ _ _
  · rintro ⟨_, h2⟩
    rw [hget_hset_self] at h2
    simp [hTruthy] at h2
    exact intStr_pos_ne_empty n hn h2

/-- C2 witness: the amended claim at `contentLength = 1048576` with
user-supplied `Content-Length: 999`. -/
theorem c2_witness :
    hget (effectiveUploadHeaders pC2 none) "Content-Length" = some (intStr 1048576) :=
  c2_explicit_length_overrides pC2 1048576 none rfl (by omega)

/-- C5 counterexample: the upload URL carries `?bearer=tok123` and the user
supplies `AUTHORIZATION` (upper-case); the token is injected anyway (and the
user header also kept), refuting the claim that an Authorization header in
any capitalization suppresses injection. -/
theorem c5_counterexample :
    hget (effectiveUploadHeaders pC5 none) "Authorization" = some ("Bearer " ++ "tok123")
    ∧ hget (effectiveUploadHeaders pC5 none) "AUTHORIZATION" = some "Basic xyz" :=
  ⟨rfl, rfl⟩

/-- C5 (amended): when the upload URL yields a bearer token, the token is
injected as `Authorization: Bearer <token>` whenever the user headers
contain no Authorization key in any capitalization; but suppression happens
only for the exact key casings `Authorization` and `authorization` with a
truthy value — a user-supplied `Authorization` (exact casing, non-empty) is
kept, while other capitalizations do not prevent injection
(`c5_counterexample`). -/
theorem c5_bearer_injection (p : Params) (clh : Option String) (t : String)
    (htok : (extractBearerToken p.uploadUrl).token = some t) :
    ((∀ kv ∈ parseHeaders p.uploadHeadersParam, lowerStr kv.1 ≠ "authorization") →
      hget (effectiveUploadHeaders p clh) "Authorization" = some ("Bearer " ++ t))
    ∧ (∀ v, v ≠ "" →
        hget (baseUploadHeaders p.uploadHeadersParam) "Authorization" = some v →
        hget (effectiveUploadHeaders p clh) "Authorization" = some v) := by
  have hA : ("Authorization" : String) ≠ "Content-Length" := by decide
  constructor
  · intro hnone
    have hu1 : hget (baseUploadHeaders p.uploadHeadersParam) "Authorization" = none := by
      rw [baseUploadHeaders, hget_hmerge,
        hgetLast_none _ _ (fun kv hm he => hnone kv hm (by rw [he]; rfl))]
      rfl
    have hu2 : hget (baseUploadHeaders p.uploadHeadersParam) "authorization" = none := by
      rw [baseUploadHeaders, hget_hmerge,
        hgetLast_none _ _ (fun kv hm he => hnone kv hm (by rw [he]; rfl))]
      rfl
    have hb : applyBearer (baseUploadHeaders p.uploadHeadersParam) (some t)
        = hset (baseUploadHeaders p.uploadHeadersParam) "Authorization" ("Bearer " ++ t) := by
      simp only [applyBearer]
      rw [if_pos ⟨by rw [hu1]; rfl, by rw [hu2]; rfl⟩]
    rw [effectiveUploadHeaders, mkFinalUploadHeaders,
      hget_resolveCL_ne _ _ _ _ hA, hget_applyExplicitCL_ne _ _ _ hA, htok, hb]
    exact hget_hset_self _ _ _
  · intro v hv hbase
    rw [effectiveUploadHeaders, mkFinalUploadHeaders,
      hget_resolveCL_ne _ _ _ _ hA, hget_applyExplicitCL_ne _ _ _ hA, htok,
      hget_applyBearer_of_truthy _ _ v hbase hv]
    exact hbase

/-- C5 witness: with `?bearer=tok123` and no Authorization-like user
header, the effective upload headers carry `Authorization: Bearer tok123`. -/
theorem c5_witness :
    hget (effectiveUploadHeaders pC5w none) "Authorization" = some ("Bearer " ++ "tok123") :=
  (c5_bearer_injection pC5w none "tok123" (by rfl)).1 (by decide)

/-- C6: in both implementations, an absent/empty/whitespace-only download
or upload URL makes the transfer throw the corresponding "required" error —
before the try block, hence regardless of `throwOnError` (the quantified
`p` covers both values) and of anything the transports would do. -/
theorem c6_url_validation (p : Params) (dl2 : Dl2) (ul2 : Ul2) (dl1 : Dl1) (ul1 : Ul1) :
    (jsTrim p.downloadUrl = "" →
      execute2 p dl2 ul2 = ExecResult.thrown "Download URL is required and cannot be empty"
      ∧ execute1 p dl1 ul1 = ExecResult.thrown "Download URL is required and cannot be empty")
    ∧ (jsTrim p.downloadUrl ≠ "" → jsTrim p.uploadUrl = "" →
      execute2 p dl2 ul2 = ExecResult.thrown "Upload URL is required and cannot be empty"
      ∧ execute1 p dl1 ul1 = ExecResult.thrown "Upload URL is required and cannot be empty") := by
  constructor
  · intro h
    constructor
    · rw [execute2.eq_def, if_pos (Or.inr h)]
    · rw [execute1.eq_def, if_pos (Or.inr h)]
  · intro h1 h2
    constructor
    · rw [execute2.eq_def, if_neg (urlCondNeg h1), if_pos (Or.inr h2)]
    · rw [execute1.eq_def, if_neg (urlCondNeg h1), if_pos (Or.inr h2)]

/-- C6 witness: a whitespace-only download URL throws the required-URL
error in both implementations. -/
theorem c6_witness :
    execute2 pC6 (Dl2.resp (some 200) none) (Ul2.resp (some 200) none)
      = ExecResult.thrown "Download URL is required and cannot be empty"
    ∧ execute1 pC6 (Dl1.resp (some 200) none Body1.stream) (Ul1.resp (some 200) Json.null)
      = ExecResult.thrown "Download URL is required and cannot be empty" :=
  (c6_url_validation pC6 (Dl2.resp (some 200) none) (Ul2.resp (some 200) none)
    (Dl1.resp (some 200) none Body1.stream) (Ul1.resp (some 200) Json.null)).1 (by decide)

theorem catchBlock_throw (p : Params) (msg : String) (ht : p.throwOnError = true) :
    catchBlock p msg = ExecResult.thrown (enhanceMessage msg p.downloadUrl p.uploadUrl) := by
  simp only [catchBlock, ht, if_true]

theorem catchBlock_soft (p : Params) (msg : String) (hf : p.throwOnError = false) :
    catchBlock p msg = ExecResult.returned
      [("error", JVal.s (enhanceMessage msg p.downloadUrl p.uploadUrl)),
       ("success", JVal.b false),
       ("downloadUrl", JVal.s p.downloadUrl), ("uploadUrl", JVal.s p.uploadUrl)] := by
  simp only [catchBlock, hf, Bool.false_eq_true, if_false]

theorem execute2_download_fail (p : Params) (sc : Option Nat) (clh : Option String) (u : Ul2)
    (hd : jsTrim p.downloadUrl ≠ "") (hu : jsTrim p.uploadUrl ≠ "")
    (hc : sc.getD 0 < 200 ∨ 300 ≤ sc.getD 0) :
    execute2 p (Dl2.resp sc clh) u
      = catchBlock p (mDownloadFailed (sc.getD 0) p.downloadUrl) := by
  rw [execute2.eq_def, if_neg (urlCondNeg hd), if_neg (urlCondNeg hu)]
  dsimp only
  rw [if_pos hc]

/-- C1 counterexample: in the native-HTTP implementation (the one the claim
cites), a 404 download with `throwOnError = false` returns a soft-failure
record with keys `error`/`success`/`downloadUrl`/`uploadUrl` only — there is
no `downloadStatus` field, refuting that part of the claim (the non-2xx
download rejects into the generic outer catch). -/
theorem c1_counterexample :
    resKeys (execute2 pC1 (Dl2.resp (some 404) none) (Ul2.resp (some 200) none))
      = ["error", "success", "downloadUrl", "uploadUrl"]
    ∧ ("downloadStatus" ∈
        resKeys (execute2 pC1 (Dl2.resp (some 404) none) (Ul2.resp (some 200) none)) → False) :=
  ⟨rfl, by decide⟩

/-- C1 (amended): when the download leg of the native-HTTP implementation
returns a non-2xx status, the upload is never attempted (the result is
independent of the upload leg); with `throwOnError = true` the raised
message is the download-failure message `Download failed with HTTP <code>
from <url>...` wrapped by the outer enrichment (`File transfer failed: ...`
with both URLs); with `throwOnError = false` a soft-failure record is
returned carrying that enriched message, `success: false` and both URLs —
but no `downloadStatus` field. -/
theorem c1_download_failure (p : Params) (sc : Option Nat) (clh : Option String) (ua ub : Ul2)
    (hd : jsTrim p.downloadUrl ≠ "") (hu : jsTrim p.uploadUrl ≠ "")
    (hc : sc.getD 0 < 200 ∨ 300 ≤ sc.getD 0) :
    execute2 p (Dl2.resp sc clh) ua = execute2 p (Dl2.resp sc clh) ub
    ∧ (p.throwOnError = true →
        execute2 p (Dl2.resp sc clh) ua
          = ExecResult.thrown
              (enhanceMessage (mDownloadFailed (sc.getD 0) p.downloadUrl)
                p.downloadUrl p.uploadUrl))
    ∧ (p.throwOnError = false →
        execute2 p (Dl2.resp sc clh) ua
          = ExecResult.returned
              [("error", JVal.s (enhanceMessage (mDownloadFailed (sc.getD 0) p.downloadUrl)
                  p.downloadUrl p.uploadUrl)),
               ("success", JVal.b false),
               ("downloadUrl", JVal.s p.downloadUrl), ("uploadUrl", JVal.s p.uploadUrl)]) := by
  refine ⟨?_, ?_, ?_⟩
  · rw [execute2_download_fail p sc clh ua hd hu hc, execute2_download_fail p sc clh ub hd hu hc]
  · intro ht
    rw [execute2_download_fail p sc clh ua hd hu hc, catchBlock_throw p _ ht]
  · intro hf
    rw [execute2_download_fail p sc clh ua hd hu hc, catchBlock_soft p _ hf]

/-- C1 witness: the amended claim at a concrete 404 download with
`throwOnError = false` — upload-leg independence and the exact soft
record. -/
theorem c1_witness :
    execute2 pC1 (Dl2.resp (some 404) none) (Ul2.resp (some 200) none)
      = execute2 pC1 (Dl2.resp (some 404) none) (Ul2.reqError "never sent")
    ∧ execute2 pC1 (Dl2.resp (some 404) none) (Ul2.resp (some 200) none)
      = ExecResult.returned
          [("error", JVal.s (enhanceMessage (mDownloadFailed 404 pC1.downloadUrl)
              pC1.downloadUrl pC1.uploadUrl)),
           ("success", JVal.b false),
           ("downloadUrl", JVal.s pC1.downloadUrl), ("uploadUrl", JVal.s pC1.uploadUrl)] := by
  have h := c1_download_failure pC1 (some 404) none (Ul2.resp (some 200) none)
    (Ul2.reqError "never sent") (by decide) (by decide) (by decide)
  exact ⟨h.1, h.2.2 rfl⟩

/-- C3 (code bug): for a 200 download and a 401 upload with
`throwOnError = false`, the native-HTTP implementation returns the upload
soft-failure record with exactly the keys `error`, `uploadStatus`,
`downloadStatus`, `uploadUrl`, `downloadUrl` — and no `success` field,
although the README's Example 4 documents `success: false` in precisely this
output. -/
theorem c3_upload_soft_record_fields :
    execute2 pC3 (Dl2.resp (some 200) none) (Ul2.resp (some 401) none)
      = ExecResult.returned
          [("error", JVal.s (mUploadFailed 401 "https://api.example.com/files/upload" "POST")),
           ("uploadStatus", JVal.n 401), ("downloadStatus", JVal.n 200),
           ("uploadUrl", JVal.s "https://api.example.com/files/upload"),
           ("downloadUrl", JVal.s "https://storage.example.com/bucket/file.pdf")]
    ∧ ("success" ∈
        resKeys (execute2 pC3 (Dl2.resp (some 200) none) (Ul2.resp (some 401) none)) → False) :=
  ⟨rfl, by decide⟩

theorem execute1_parsedObj (p : Params) (sc : Option Nat) (clh : Option String)
    (keys : List String) (strf : String) (u : Ul1)
    (hd : jsTrim p.downloadUrl ≠ "") (hu : jsTrim p.uploadUrl ≠ "")
    (hsc : ∀ c, sc = some c → 200 ≤ c ∧ c < 300) :
    execute1 p (Dl1.resp sc clh (Body1.parsedObj keys strf)) u
      = catchBlock p (notStreamableMsg1 p.downloadUrl (keys.take 5) (strTake strf 200)) := by
  rw [execute1.eq_def, if_neg (urlCondNeg hd), if_neg (urlCondNeg hu)]
  cases sc with
  | none => rfl
  | some c =>
    have hb := hsc c rfl
    dsimp only
    rw [if_neg (by omega)]
    rfl

/-- C4 counterexample: a 200 download whose body is a parsed object, with
`throwOnError = false`, does NOT raise — the "not a streamable format"
diagnostic goes through the outer catch and is returned as a soft-failure
record, refuting "this failure is raised regardless of throwOnError". -/
theorem c4_counterexample :
    isThrown (execute1 pC4
      (Dl1.resp (some 200) none (Body1.parsedObj ["message"] bodyPreviewC4))
      (Ul1.resp (some 200) Json.null)) = false
    ∧ containsStr (errField (execute1 pC4
        (Dl1.resp (some 200) none (Body1.parsedObj ["message"] bodyPreviewC4))
        (Ul1.resp (some 200) Json.null))) "not a streamable format" = true := by
  constructor
  · rfl
  · set_option maxRecDepth 4096 in decide

/-- C4 (amended): a 2xx (or status-less) download whose body is a parsed
object never reaches the upload (the result is independent of the upload
leg) and produces the diagnostic `notStreamableMsg1` — which contains "not a
streamable format", the body's type and the ≤200-character preview — but the
failure is raised only when `throwOnError = true`; with
`throwOnError = false` the same enriched message is returned as a
soft-failure record. -/
theorem c4_unstreamable_body (p : Params) (sc : Option Nat) (clh : Option String)
    (keys : List String) (strf : String) (ua ub : Ul1)
    (hd : jsTrim p.downloadUrl ≠ "") (hu : jsTrim p.uploadUrl ≠ "")
    (hsc : ∀ c, sc = some c → 200 ≤ c ∧ c < 300) :
    execute1 p (Dl1.resp sc clh (Body1.parsedObj keys strf)) ua
      = execute1 p (Dl1.resp sc clh (Body1.parsedObj keys strf)) ub
    ∧ (p.throwOnError = true →
        execute1 p (Dl1.resp sc clh (Body1.parsedObj keys strf)) ua
          = ExecResult.thrown
              (enhanceMessage
                (notStreamableMsg1 p.downloadUrl (keys.take 5) (strTake strf 200))
                p.downloadUrl p.uploadUrl))
    ∧ (p.throwOnError = false →
        execute1 p (Dl1.resp sc clh (Body1.parsedObj keys strf)) ua
          = ExecResult.returned
              [("error", JVal.s (enhanceMessage
                  (notStreamableMsg1 p.downloadUrl (keys.take 5) (strTake strf 200))
                  p.downloadUrl p.uploadUrl)),
               ("success", JVal.b false),
               ("downloadUrl", JVal.s p.downloadUrl), ("uploadUrl", JVal.s p.uploadUrl)]) := by
  refine ⟨?_, ?_, ?_⟩
  · rw [execute1_parsedObj p sc clh keys strf ua hd hu hsc,
      execute1_parsedObj p sc clh keys strf ub hd hu hsc]
  · intro ht
    rw [execute1_parsedObj p sc clh keys strf ua hd hu hsc, catchBlock_throw p _ ht]
  · intro hf
    rw [execute1_parsedObj p sc clh keys strf ua hd hu hsc, catchBlock_soft p _ hf]

/-- C4 witness: the amended claim at the concrete parsed-object body with
`throwOnError = false` — upload independence and the soft record. -/
theorem c4_witness :
    execute1 pC4 (Dl1.resp (some 200) none (Body1.parsedObj ["message"] bodyPreviewC4))
        (Ul1.resp (some 200) Json.null)
      = execute1 pC4 (Dl1.resp (some 200) none (Body1.parsedObj ["message"] bodyPreviewC4))
        (Ul1.reqError "never sent")
    ∧ execute1 pC4 (Dl1.resp (some 200) none (Body1.parsedObj ["message"] bodyPreviewC4))
        (Ul1.resp (some 200) Json.null)
      = ExecResult.returned
          [("error", JVal.s (enhanceMessage
              (notStreamableMsg1 pC4.downloadUrl (["message"].take 5) (strTake bodyPreviewC4 200))
              pC4.downloadUrl pC4.uploadUrl)),
           ("success", JVal.b false),
           ("downloadUrl", JVal.s pC4.downloadUrl), ("uploadUrl", JVal.s pC4.uploadUrl)] := by
  have h := c4_unstreamable_body pC4 (some 200) none ["message"] bodyPreviewC4
    (Ul1.resp (some 200) Json.null) (Ul1.reqError "never sent")
    (by decide) (by decide) (by intro c hc; cases hc; omega)
  exact ⟨h.1, h.2.2 rfl⟩

theorem execute2_dl_reqError (p : Params) (m : String) (ul : Ul2)
    (hd : jsTrim p.downloadUrl ≠ "") (hu : jsTrim p.uploadUrl ≠ "") :
    execute2 p (Dl2.reqError m) ul = catchBlock p ("Download request failed: " ++ m) := by
  rw [execute2.eq_def, if_neg (urlCondNeg hd), if_neg (urlCondNeg hu)]

theorem execute2_ul_reqError (p : Params) (c : Nat) (clh : Option String) (m : String)
    (hd : jsTrim p.downloadUrl ≠ "") (hu : jsTrim p.uploadUrl ≠ "")
    (h2 : 200 ≤ c ∧ c < 300) :
    execute2 p (Dl2.resp (some c) clh) (Ul2.reqError m) = catchBlock p m := by
  rw [execute2.eq_def, if_neg (urlCondNeg hd), if_neg (urlCondNeg hu)]
  dsimp only
  rw [if_neg (by simp only [Option.getD_some]; omega)]

theorem execute1_dl_reqError (p : Params) (m : String) (ul : Ul1)
    (hd : jsTrim p.downloadUrl ≠ "") (hu : jsTrim p.uploadUrl ≠ "") :
    execute1 p (Dl1.reqError m) ul = catchBlock p m := by
  rw [execute1.eq_def, if_neg (urlCondNeg hd), if_neg (urlCondNeg hu)]

/-- C7 counterexample: an upload-leg transport failure whose message names
the upload URL (but not the literal labels `Download URL`/`Upload URL`) is
still enriched — the stored error differs from the original message and is
the wrapped form — refuting the claim's "unless the original message already
names one of them" (the code tests for the literal labels, not for the URL
values). -/
theorem c7_counterexample :
    containsStr mC7 pC7.uploadUrl = true
    ∧ errField (execute2 pC7 (Dl2.resp (some 200) none) (Ul2.reqError mC7)) ≠ mC7
    ∧ errField (execute2 pC7 (Dl2.resp (some 200) none) (Ul2.reqError mC7))
        = "File transfer failed: " ++ mC7
            ++ ". Download URL: http://dl.example/f, Upload URL: http://up.example/u" := by
  refine ⟨by decide, ?_, rfl⟩
  set_option maxRecDepth 4096 in decide

/-- C7 (amended): every fault reaching the outer boundary — a download
request error (whose message arrives prefixed `Download request failed: `)
or an upload request error — is processed by the single catch block: the
message is enriched with both URLs unless it already contains the literal
text `Download URL` or `Upload URL` (not: unless it names one of the URL
values); with `throwOnError = true` the enriched message is raised, else it
is returned as `error`/`success:false`/both URLs. -/
theorem c7_outer_fault_enrichment (p : Params) (m : String) (c : Nat) (clh : Option String)
    (ul2 : Ul2) (ul1 : Ul1)
    (hd : jsTrim p.downloadUrl ≠ "") (hu : jsTrim p.uploadUrl ≠ "")
    (h2 : 200 ≤ c ∧ c < 300) :
    execute2 p (Dl2.reqError m) ul2 = catchBlock p ("Download request failed: " ++ m)
    ∧ execute2 p (Dl2.resp (some c) clh) (Ul2.reqError m) = catchBlock p m
    ∧ execute1 p (Dl1.reqError m) ul1 = catchBlock p m
    ∧ (p.throwOnError = true →
        catchBlock p m = ExecResult.thrown (enhanceMessage m p.downloadUrl p.uploadUrl))
    ∧ (p.throwOnError = false →
        catchBlock p m = ExecResult.returned
          [("error", JVal.s (enhanceMessage m p.downloadUrl p.uploadUrl)),
           ("success", JVal.b false),
           ("downloadUrl", JVal.s p.downloadUrl), ("uploadUrl", JVal.s p.uploadUrl)])
    ∧ (containsStr m "Download URL" = false → containsStr m "Upload URL" = false →
        enhanceMessage m p.downloadUrl p.uploadUrl
          = "File transfer failed: " ++ m ++ ". Download URL: " ++ p.downloadUrl
            ++ ", Upload URL: " ++ p.uploadUrl)
    ∧ ((containsStr m "Download URL" = true ∨ containsStr m "Upload URL" = true) →
        enhanceMessage m p.downloadUrl p.uploadUrl = m) := by
  refine ⟨execute2_dl_reqError p m ul2 hd hu,
    execute2_ul_reqError p c clh m hd hu h2,
    execute1_dl_reqError p m ul1 hd hu,
    catchBlock_throw p m, catchBlock_soft p m, ?_, ?_⟩
  · intro hnd hnu
    rw [enhanceMessage, if_neg]
    rintro (h | h)
    · rw [hnd] at h
      exact Bool.noConfusion h
    · rw [hnu] at h
      exact Bool.noConfusion h
  · intro h
    rw [enhanceMessage, if_pos h]

/-- C7 witness: the amended claim at a concrete transport failure with
`throwOnError = false`: the upload-leg fault is caught, enriched (its
message contains neither label) and returned as a soft record. -/
theorem c7_witness :
    execute2 pC7 (Dl2.resp (some 200) none) (Ul2.reqError mC7) = catchBlock pC7 mC7
    ∧ catchBlock pC7 mC7 = ExecResult.returned
        [("error", JVal.s (enhanceMessage mC7 pC7.downloadUrl pC7.uploadUrl)),
         ("success", JVal.b false),
         ("downloadUrl", JVal.s pC7.downloadUrl), ("uploadUrl", JVal.s pC7.uploadUrl)]
    ∧ enhanceMessage mC7 pC7.downloadUrl pC7.uploadUrl
        = "File transfer failed: " ++ mC7 ++ ". Download URL: " ++ pC7.downloadUrl
          ++ ", Upload URL: " ++ pC7.uploadUrl := by
  have h := c7_outer_fault_enrichment pC7 mC7 200 none (Ul2.reqError mC7)
    (Ul1.reqError mC7) (by decide) (by decide) (by omega)
  exact ⟨h.2.1, h.2.2.2.2.1 rfl,
    h.2.2.2.2.2.1 (by set_option maxRecDepth 4096 in decide)
      (by set_option maxRecDepth 4096 in decide)⟩
